import Mathlib

/- Formal model of the toggl-rs billing engine (src/main.rs and src/client.rs).

   Rust i64 values are modelled as Int (no arithmetic in the program can
   approach the i64 range); Rust integer division `/` truncates toward zero
   and is rendered as Int.tdiv; f64 amounts are modelled exactly as Rat;
   Rust String ordering (byte-wise lexicographic, which agrees with
   codepoint-lexicographic order on valid UTF-8) is modelled by a
   lexicographic comparison on Char lists. -/

/-- Lexicographic comparison of Char lists: model of Rust `<=` on String
    (byte-wise lexicographic, order-isomorphic to codepoint order). -/
def charListLe : List Char → List Char → Bool
  | [], _ => true
  | _ :: _, [] => false
  | a :: as, b :: bs => if a < b then true else if b < a then false else charListLe as bs

/-- Model of the Rust comparison `day <= client.last_billed_date` on String. -/
def rustStrLe (a b : String) : Bool := charListLe a.toList b.toList

/-- Model of Rust `<` on String. -/
def rustStrLt (a b : String) : Bool := !(rustStrLe b a)

/-- src/main.rs `calculate_billable_minutes`: the tiered rounding policy.
    The match arms `0..=10`, `11..=60`, `61..=70`, `71..=120`, `_` are
    rendered as an if chain tested in the same order. -/
def calculate_billable_minutes (minutes : Int) : Int :=
  if 0 ≤ minutes ∧ minutes ≤ 10 then 0
  else if 11 ≤ minutes ∧ minutes ≤ 60 then 60
  else if 61 ≤ minutes ∧ minutes ≤ 70 then minutes
  else if 71 ≤ minutes ∧ minutes ≤ 120 then 120
  else minutes

/-- src/main.rs `Client` (configuration record); `hourly_rate: f64` is
    modelled exactly as Rat. -/
structure Client where
  id : String
  hourly_rate : Rat
  last_billed_date : String
  deriving DecidableEq

/-- src/main.rs `BillReportDay`. -/
structure BillReportDay where
  date : String
  actual_minutes : Int
  billed_minutes : Int
  billed_amount : Rat
  billed : Bool
  deriving DecidableEq

/-- src/main.rs `BillReport`. -/
structure BillReport where
  days : List BillReportDay
  deriving DecidableEq

/-- The loop body of src/main.rs `build_bill_report`: the row built for one
    `(day, minutes)` pair of the summary. -/
def mkBillReportDay (client : Client) (day : String) (minutes : Int) : BillReportDay :=
  { date := day
    actual_minutes := minutes
    billed_minutes := calculate_billable_minutes minutes
    billed_amount := (calculate_billable_minutes minutes : Rat) * client.hourly_rate / 60
    billed := rustStrLe day client.last_billed_date }

/-- Stable insertion into a date-sorted list: building block of the model of
    `bill_report.days.sort_by_key(|x| x.date.clone())`. -/
def insertByDate (d : BillReportDay) : List BillReportDay → List BillReportDay
  | [] => [d]
  | e :: es => if rustStrLt e.date d.date then e :: insertByDate d es else d :: e :: es

/-- Model of the stable sort `sort_by_key(|x| x.date.clone())` in
    src/main.rs `build_bill_report`, as a stable insertion sort. -/
def sortByDate : List BillReportDay → List BillReportDay
  | [] => []
  | d :: ds => insertByDate d (sortByDate ds)

/-- src/main.rs `build_bill_report`. The HashMap summary is modelled as the
    list of its key-value pairs in some iteration order. -/
def build_bill_report (summary : List (String × Int)) (client : Client) : BillReport :=
  { days := sortByDate (summary.map (fun p => mkBillReportDay client p.1 p.2)) }

/-- src/main.rs `calculate_minutes`: fold accumulating `billed_minutes` of
    the days with `billed == false`. -/
def calculate_minutes (bill_report : BillReport) : Int :=
  bill_report.days.foldl (fun acc day => if day.billed then acc else acc + day.billed_minutes) 0

/-- src/main.rs `main`, line 70: `let total_hours = (total_minutes + 59) / 60;`
    with the Rust i64 division (truncation toward zero). -/
def total_hours_of (total_minutes : Int) : Int := Int.tdiv (total_minutes + 59) 60

/-- Ceiling of m / 60 over the integers, as the spec words `totalHours =
    ceil(totalMinutes / 60)` read; defined as the negated floor of the
    negation and certified by `ceilHoursSpec_spec` below. -/
def ceilHoursSpec (m : Int) : Int := -(Int.fdiv (-m) 60)

/-- The four-tier table exactly as the spec states it, for worked minutes
    m at least 0: 0 on 0..=10, 60 on 11..=60, m on 61..=70, 120 on 71..=120,
    and m from 121 on. -/
def billableTierTable (m : Int) : Int :=
  if m ≤ 10 then 0
  else if m ≤ 60 then 60
  else if m ≤ 70 then m
  else if m ≤ 120 then 120
  else m

/-- A parsed RFC 3339 timestamp as chrono `DateTime<FixedOffset>` carries it:
    local calendar fields, nanoseconds, and the offset in seconds east. -/
structure Timestamp where
  year : Nat
  month : Nat
  day : Nat
  hour : Nat
  minute : Nat
  second : Nat
  nanos : Nat
  offset : Int
  deriving DecidableEq

/-- Numeric value of a decimal digit character. -/
def digitVal (c : Char) : Nat := c.toNat - 48

/-- Gregorian leap-year rule. -/
def isLeapYear (y : Nat) : Bool := (y % 4 == 0 && y % 100 != 0) || y % 400 == 0

/-- Number of days of a month. -/
def daysInMonth (y m : Nat) : Nat :=
  if m = 2 then (if isLeapYear y then 29 else 28)
  else if m = 4 ∨ m = 6 ∨ m = 9 ∨ m = 11 then 30
  else 31

/-- RFC 3339 offset suffix: `Z`, `z`, or a signed `hh:mm` within the range
    chrono accepts for a FixedOffset. Returns seconds east. -/
def parseOffset : List Char → Option Int
  | ['Z'] => some 0
  | ['z'] => some 0
  | [sg, h1, h2, ':', m1, m2] =>
    if (sg = '+' ∨ sg = '-') ∧ h1.isDigit ∧ h2.isDigit ∧ m1.isDigit ∧ m2.isDigit then
      let hh := 10 * digitVal h1 + digitVal h2
      let mm := 10 * digitVal m1 + digitVal m2
      if hh ≤ 23 ∧ mm ≤ 59 then
        some (if sg = '-' then -((hh * 3600 + mm * 60 : Nat) : Int) else ((hh * 3600 + mm * 60 : Nat) : Int))
      else none
    else none
  | _ => none

/-- Nanoseconds encoded by a fraction-digit run; chrono keeps the first nine
    digits and ignores the rest. -/
def nanosOfFrac (ds : List Char) : Nat :=
  ((ds.take 9).foldl (fun acc c => 10 * acc + digitVal c) 0) * 10 ^ (9 - (ds.take 9).length)

/-- The tail of an RFC 3339 string after the seconds: an optional dotted
    fraction followed by the offset. -/
def parseFracOffset : List Char → Option (Nat × Int)
  | '.' :: rest =>
    if (rest.takeWhile Char.isDigit).isEmpty then none
    else (parseOffset (rest.dropWhile Char.isDigit)).map
      (fun off => (nanosOfFrac (rest.takeWhile Char.isDigit), off))
  | cs => (parseOffset cs).map (fun off => (0, off))

/-- Model of chrono `DateTime::parse_from_rfc3339` as called in
    src/main.rs `build_summary`: full-string parse of
    `YYYY-MM-DD[Tt ]hh:mm:ss[.frac](Z|±hh:mm)` with calendar validation. -/
def parseRfc3339 (s : String) : Option Timestamp :=
  match s.toList with
  | y1 :: y2 :: y3 :: y4 :: '-' :: mo1 :: mo2 :: '-' :: d1 :: d2 :: sep ::
      h1 :: h2 :: ':' :: mi1 :: mi2 :: ':' :: s1 :: s2 :: rest =>
    if y1.isDigit ∧ y2.isDigit ∧ y3.isDigit ∧ y4.isDigit ∧ mo1.isDigit ∧ mo2.isDigit
        ∧ d1.isDigit ∧ d2.isDigit ∧ (sep = 'T' ∨ sep = 't' ∨ sep = ' ')
        ∧ h1.isDigit ∧ h2.isDigit ∧ mi1.isDigit ∧ mi2.isDigit ∧ s1.isDigit ∧ s2.isDigit then
      let y := 1000 * digitVal y1 + 100 * digitVal y2 + 10 * digitVal y3 + digitVal y4
      let mo := 10 * digitVal mo1 + digitVal mo2
      let d := 10 * digitVal d1 + digitVal d2
      let h := 10 * digitVal h1 + digitVal h2
      let mi := 10 * digitVal mi1 + digitVal mi2
      let sec := 10 * digitVal s1 + digitVal s2
      if 1 ≤ mo ∧ mo ≤ 12 ∧ 1 ≤ d ∧ d ≤ daysInMonth y mo ∧ h ≤ 23 ∧ mi ≤ 59 ∧ sec ≤ 59 then
        (parseFracOffset rest).map (fun fo => ⟨y, mo, d, h, mi, sec, fo.1, fo.2⟩)
      else none
    else none
  | _ => none

/-- Days since 1970-01-01 of a Gregorian calendar date (the standard
    days-from-civil computation). -/
def daysFromCivil (y m d : Int) : Int :=
  let yAdj := y - (if m ≤ 2 then 1 else 0)
  let era := Int.fdiv yAdj 400
  let yoe := yAdj - era * 400
  let mp := (m + 9) % 12
  let doy := Int.fdiv (153 * mp + 2) 5 + d - 1
  let doe := yoe * 365 + Int.fdiv yoe 4 - Int.fdiv yoe 100 + doy
  era * 146097 + doe - 719468

/-- Seconds since the epoch of the instant a parsed timestamp denotes
    (local clock reading minus the encoded offset). -/
def utcSeconds (t : Timestamp) : Int :=
  daysFromCivil t.year t.month t.day * 86400
    + (t.hour : Int) * 3600 + (t.minute : Int) * 60 + (t.second : Int) - t.offset

/-- Nanoseconds since the epoch: position of the instant on the time line. -/
def timelineNanos (t : Timestamp) : Int := utcSeconds t * 1000000000 + (t.nanos : Int)

/-- chrono `TimeDelta::num_seconds` applied to a difference of n
    nanoseconds: the delta is normalized to seconds plus nanos in
    [0, 1e9), and a negative delta with a fractional part is bumped by
    one (truncation toward zero). -/
def deltaNumSeconds (n : Int) : Int :=
  if Int.fdiv n 1000000000 < 0 ∧ 0 < n - Int.fdiv n 1000000000 * 1000000000 then
    Int.fdiv n 1000000000 + 1
  else Int.fdiv n 1000000000

/-- chrono `TimeDelta::num_minutes`: `num_seconds / 60` with Rust i64
    division (truncation toward zero). -/
def deltaNumMinutes (n : Int) : Int := Int.tdiv (deltaNumSeconds n) 60

/-- The minutes value `(end - start).num_minutes()` computed in
    src/main.rs `build_summary` for one entry. -/
def entryMinutes (st en : Timestamp) : Int := deltaNumMinutes (timelineNanos en - timelineNanos st)

/-- Zero-pad a number to two digits, as chrono `%m` and `%d` print. -/
def pad2 (n : Nat) : String := if n < 10 then "0" ++ toString n else toString n

/-- Zero-pad a year to four digits, as chrono `%Y` prints it. -/
def pad4 (n : Nat) : String :=
  if n < 10 then "000" ++ toString n
  else if n < 100 then "00" ++ toString n
  else if n < 1000 then "0" ++ toString n
  else toString n

/-- The day bucket key `start.format("%Y-%m-%d")` of src/main.rs
    `build_summary`: the local calendar date of the timestamp. -/
def dayKey (t : Timestamp) : String := pad4 t.year ++ "-" ++ pad2 t.month ++ "-" ++ pad2 t.day

/-- src/main.rs `TimeEntry`: raw start and end strings from the API. -/
structure TimeEntry where
  start : String
  «end» : String
  deriving DecidableEq

/-- The HashMap update `summary.entry(day).and_modify(|x| *x += diff).or_insert(diff)`
    of src/main.rs `build_summary`, on the map modelled as a function. -/
def insertSummary (s : String → Option Int) (day : String) (diff : Int) : String → Option Int :=
  fun k =>
    if k = day then
      match s day with
      | some x => some (x + diff)
      | none => some diff
    else s k

/-- The entry loop of src/main.rs `build_summary`, threading the summary
    map: parse start, parse end, bucket the minute difference under the
    local date of start; a parse failure aborts with the message
    `with_context` attaches. -/
def buildSummaryGo : List TimeEntry → (String → Option Int) → Except String (String → Option Int)
  | [], acc => .ok acc
  | e :: rest, acc =>
    match parseRfc3339 e.start with
    | none => .error ("Failed to parse start date: " ++ e.start)
    | some st =>
      match parseRfc3339 e.«end» with
      | none => .error ("Failed to parse end date: " ++ e.«end»)
      | some en => buildSummaryGo rest (insertSummary acc (dayKey st) (entryMinutes st en))

/-- src/main.rs `build_summary` on the entry list of a ReportDetails. -/
def build_summary (entries : List TimeEntry) : Except String (String → Option Int) :=
  buildSummaryGo entries (fun _ => none)

/-- Observation of a build_summary result at one day key (none when the
    whole aggregation failed). -/
def summaryAt (r : Except String (String → Option Int)) (d : String) : Option (Option Int) :=
  match r with
  | .ok f => some (f d)
  | .error _ => none

/-- Observation of a build_summary result as its error message, when the
    aggregation failed. -/
def summaryError (r : Except String (String → Option Int)) : Option String :=
  match r with
  | .ok _ => none
  | .error msg => some msg

/-- The minutes an entry contributes to day d: its computed duration when
    both fields parse and the start date is d, nothing otherwise. -/
def entryContrib (d : String) (e : TimeEntry) : Option Int :=
  match parseRfc3339 e.start, parseRfc3339 e.«end» with
  | some st, some en => if dayKey st = d then some (entryMinutes st en) else none
  | _, _ => none

/-- All contributions of an entry list to day d, in list order. -/
def dayContribs (entries : List TimeEntry) (d : String) : List Int :=
  entries.filterMap (entryContrib d)

/-- The day total the spec describes: the sum of the durations of the
    entries whose start falls on that day, absent when no entry does. -/
def daySum (entries : List TimeEntry) (d : String) : Option Int :=
  if (dayContribs entries d).isEmpty then none else some (dayContribs entries d).sum

/-- src/client.rs `get_year_data`, lines 66-71: the page count derived from
    `total_count` when `total_count > 50`. -/
def totalPagesCalc (total_count : Nat) : Nat :=
  total_count / 50 + (if total_count % 50 > 0 then 1 else 0)

/-- The pages src/client.rs `get_year_data` requests: page 1
    unconditionally, then pages 2..=total_pages when `total_count > 50`. -/
def requestedPages (total_count : Nat) : List Nat :=
  if 50 < total_count then 1 :: List.range' 2 (totalPagesCalc total_count - 1) else [1]

/-- A source holding `entries` in order, serving 50-entry pages: the slice
    returned for a 1-based page number. -/
def pageSlice (entries : List α) (page : Nat) : List α := (entries.drop ((page - 1) * 50)).take 50

/-- The entries src/client.rs `get_year_data` merges for one window, when
    every page request succeeds against a source holding `entries` with
    `total_count = entries.length`: the requested pages appended in order. -/
def get_year_data_entries (entries : List α) : List α :=
  ((requestedPages entries.length).map (pageSlice entries)).flatten

/-- src/client.rs `ReportYear`: the year-window iterator state. -/
structure ReportYear where
  current : Nat
  «until» : Nat
  deriving DecidableEq

/-- The pair `(format!("{}-01-01", y), format!("{}-12-31", y))` emitted for
    year y. -/
def reportYearPair (y : Nat) : String × String := (toString y ++ "-01-01", toString y ++ "-12-31")

/-- src/client.rs `ReportYear::next`. -/
def reportYearNext (s : ReportYear) : Option ((String × String) × ReportYear) :=
  if s.«until» < s.current then none
  else some (reportYearPair s.current, ⟨s.current + 1, s.«until»⟩)

/-- Consume at most n items of the ReportYear iterator. -/
def reportYearTake : Nat → ReportYear → List (String × String)
  | 0, _ => []
  | n + 1, s =>
    match reportYearNext s with
    | none => []
    | some (p, s') => p :: reportYearTake n s'

/-- src/main.rs `Config`: the loaded configuration. -/
structure Config where
  workspace_id : String
  start_of_time : String
  clients : List (String × Client)
  deriving DecidableEq

/-- The windows src/client.rs `get_billable_report` iterates:
    `ReportYear::new(2022, None)` run to exhaustion, with the ambient
    current year (`chrono::Local::now().year()`) passed explicitly. The
    configuration is a parameter exactly as in the source, where it is
    not consulted for the starting year. -/
def billableReportWindows (_config : Config) (currentYear : Nat) : List (String × String) :=
  reportYearTake (currentYear + 1 - 2022) ⟨2022, currentYear⟩

/-- Membership in a stable insertion is membership in the inserted element
    or the original list. -/
lemma mem_insertByDate {x d : BillReportDay} : ∀ {l : List BillReportDay},
    x ∈ insertByDate d l ↔ x = d ∨ x ∈ l := by
  intro l
  induction l with
  | nil => simp [insertByDate]
  | cons e es ih =>
    simp only [insertByDate]
    split <;> simp only [List.mem_cons, ih] <;> tauto

/-- Sorting does not change the set of report days. -/
lemma mem_sortByDate {x : BillReportDay} : ∀ {l : List BillReportDay},
    x ∈ sortByDate l ↔ x ∈ l := by
  intro l
  induction l with
  | nil => simp [sortByDate]
  | cons d ds ih => simp [sortByDate, mem_insertByDate, ih]

/-- The Char-list comparison modelling Rust String order agrees with the
    standard lexicographic strict order on Char lists. -/
lemma charListLe_iff : ∀ (as bs : List Char),
    charListLe as bs = true ↔ ¬ List.Lex (· < ·) bs as := by
  intro as
  induction as with
  | nil =>
    intro bs
    simp only [charListLe]
    constructor
    · intro _ h
      cases h
    · intro _
      trivial
  | cons a as ih =>
    intro bs
    cases bs with
    | nil =>
      simp only [charListLe]
      constructor
      · intro h
        cases h
      · intro h
        exact absurd List.Lex.nil h
    | cons b bs =>
      simp only [charListLe]
      rcases lt_trichotomy a b with h | h | h
      · rw [if_pos h]
        constructor
        · intro _ hlt
          cases hlt with
          | cons _ => exact absurd h (lt_irrefl a)
          | rel h2 => exact absurd h (lt_asymm h2)
        · intro _
          rfl
      · subst h
        rw [if_neg (lt_irrefl a), if_neg (lt_irrefl a), ih bs]
        exact (not_congr List.Lex.cons_iff).symm
      · rw [if_neg (lt_asymm h), if_pos h]
        constructor
        · intro h1
          cases h1
        · intro h1
          exact absurd (List.Lex.rel h) h1

/-- The Rust String comparison model agrees with the standard lexicographic
    order on String. -/
lemma rustStrLe_iff (a b : String) : rustStrLe a b = true ↔ a ≤ b := by
  rw [rustStrLe, charListLe_iff, String.le_iff_toList_le, ← not_lt]
  exact Iff.rfl

/-- C1: for every worked-minutes value m >= 0, `calculate_billable_minutes`
    returns exactly the four-tier table of the spec (0 on 0..=10, 60 on
    11..=60, pass-through on 61..=70, 120 on 71..=120, pass-through from
    121 on), and the eight boundary cases 10→0, 11→60, 60→60, 61→61,
    70→70, 71→120, 120→120, 121→121 all hold. -/
theorem C1_tier_table :
    (∀ m : Int, 0 ≤ m → calculate_billable_minutes m = billableTierTable m) ∧
    calculate_billable_minutes 10 = 0 ∧ calculate_billable_minutes 11 = 60 ∧
    calculate_billable_minutes 60 = 60 ∧ calculate_billable_minutes 61 = 61 ∧
    calculate_billable_minutes 70 = 70 ∧ calculate_billable_minutes 71 = 120 ∧
    calculate_billable_minutes 120 = 120 ∧ calculate_billable_minutes 121 = 121 := by
  refine ⟨?_, by decide, by decide, by decide, by decide, by decide, by decide, by decide, by decide⟩
  intro m hm
  unfold calculate_billable_minutes billableTierTable
  split_ifs <;> omega

/-- Witness for C1 at the concrete worked-minutes value 35. -/
theorem C1_tier_table_witness : calculate_billable_minutes 35 = billableTierTable 35 :=
  C1_tier_table.1 35 (by decide)

/-- C2: every report day produced by `build_bill_report` has billed = true
    exactly when its day key is lexicographically at most the last billed
    date of the client. -/
theorem C2_billed_iff_le_cutoff (summary : List (String × Int)) (client : Client)
    (day : BillReportDay) (h : day ∈ (build_bill_report summary client).days) :
    day.billed = true ↔ day.date ≤ client.last_billed_date := by
  simp only [build_bill_report] at h
  rw [mem_sortByDate] at h
  rcases List.mem_map.mp h with ⟨p, _, rfl⟩
  simpa [mkBillReportDay] using rustStrLe_iff p.1 client.last_billed_date

/-- Witness for C2: the day "2022-01-02" against the cutoff "2022-01-01". -/
theorem C2_billed_iff_le_cutoff_witness :
    ((mkBillReportDay ⟨"123", 30, "2022-01-01"⟩ "2022-01-02" 25).billed = true ↔
      (mkBillReportDay ⟨"123", 30, "2022-01-01"⟩ "2022-01-02" 25).date ≤ "2022-01-01") :=
  C2_billed_iff_le_cutoff [("2022-01-02", 25)] ⟨"123", 30, "2022-01-01"⟩
    (mkBillReportDay ⟨"123", 30, "2022-01-01"⟩ "2022-01-02" 25)
    (by simp [build_bill_report, sortByDate, insertByDate])

/-- calculate_minutes is the sum of billed_minutes over the unbilled days. -/
lemma calculate_minutes_eq_sum (br : BillReport) :
    calculate_minutes br
      = ((br.days.filter (fun d => !d.billed)).map BillReportDay.billed_minutes).sum := by
  have key : ∀ (l : List BillReportDay) (a : Int),
      l.foldl (fun acc day => if day.billed then acc else acc + day.billed_minutes) a
        = a + ((l.filter (fun d => !d.billed)).map BillReportDay.billed_minutes).sum := by
    intro l
    induction l with
    | nil => simp
    | cons d ds ih =>
      intro a
      by_cases hb : d.billed <;> simp [hb, ih, add_assoc]
  simpa using key br.days 0

/-- ceilHoursSpec really is the ceiling of m / 60: m lies in the half-open
    hour block it names. -/
lemma ceilHoursSpec_spec (m : Int) :
    60 * (ceilHoursSpec m - 1) < m ∧ m ≤ 60 * ceilHoursSpec m := by
  unfold ceilHoursSpec
  rw [Int.fdiv_eq_ediv _ (by norm_num)]
  omega

/-- On non-negative totals the Rust computation (m + 59) / 60 with
    truncating division is the ceiling of m / 60. -/
lemma total_hours_eq_ceil (m : Int) (h : 0 ≤ m) : total_hours_of m = ceilHoursSpec m := by
  unfold total_hours_of ceilHoursSpec
  rw [Int.tdiv_eq_ediv (by omega) (by norm_num), Int.fdiv_eq_ediv _ (by norm_num)]
  omega

/-- C8 (amended): totalMinutes is the sum of billedMinutes over exactly the
    days with billed = false; and whenever totalMinutes is non-negative
    (always the case without negative-duration entries) the computed
    totalHours (total_minutes + 59) / 60 equals ceil(totalMinutes / 60).
    For totals at most -60 the truncating division deviates from the
    ceiling (see the counterexample). -/
theorem C8_report_totals (br : BillReport) :
    calculate_minutes br
      = ((br.days.filter (fun d => !d.billed)).map BillReportDay.billed_minutes).sum ∧
    (0 ≤ calculate_minutes br →
      total_hours_of (calculate_minutes br) = ceilHoursSpec (calculate_minutes br)) :=
  ⟨calculate_minutes_eq_sum br, fun h => total_hours_eq_ceil _ h⟩

/-- Witness for C8 at the spec example: unbilled billed-minutes 60 and 80
    give totalMinutes 140 and totalHours ceil(140/60) = 3. -/
theorem C8_report_totals_witness :
    total_hours_of
        (calculate_minutes ⟨[⟨"2022-01-02", 25, 60, 30, false⟩, ⟨"2022-01-03", 80, 80, 40, false⟩]⟩)
      = ceilHoursSpec
        (calculate_minutes ⟨[⟨"2022-01-02", 25, 60, 30, false⟩, ⟨"2022-01-03", 80, 80, 40, false⟩]⟩) ∧
    calculate_minutes ⟨[⟨"2022-01-02", 25, 60, 30, false⟩, ⟨"2022-01-03", 80, 80, 40, false⟩]⟩ = 140 ∧
    total_hours_of 140 = 3 :=
  ⟨(C8_report_totals ⟨[⟨"2022-01-02", 25, 60, 30, false⟩, ⟨"2022-01-03", 80, 80, 40, false⟩]⟩).2
    (by decide), by decide, by decide⟩

/-- C8 counterexample: a report whose single unbilled day carries -120
    billed minutes (reachable through the unclamped negative durations)
    has totalMinutes -120, where the code computes totalHours
    (-120 + 59) / 60 = -1 while ceil(-120 / 60) = -2. -/
theorem C8_counterexample :
    calculate_minutes (build_bill_report [("2022-01-02", -120)] ⟨"123", 30, "2022-01-01"⟩) = -120 ∧
    total_hours_of (-120) = -1 ∧ ceilHoursSpec (-120) = -2 ∧ (-1 : Int) ≠ -2 :=
  ⟨by decide, by decide, by decide, by decide⟩

/-- C9: the claim that the year windows start at the configured
    startOfTime is contradicted by the code, which hardcodes
    `ReportYear::new(2022, None)` and never reads `config.start_of_time`:
    with startOfTime "2018" the first window still begins at
    "2022-01-01", and the windows do not depend on the configuration at
    all. -/
theorem C9_start_year_hardcoded :
    (billableReportWindows ⟨"ws", "2018", []⟩ 2025).head? = some ("2022-01-01", "2022-12-31") ∧
    ("2022-01-01" : String) ≠ "2018-01-01" ∧
    ∀ (c1 c2 : Config) (y : Nat), billableReportWindows c1 y = billableReportWindows c2 y :=
  ⟨by decide, by decide, fun _ _ _ => rfl⟩

/-- C10: a negative worked-minutes total falls through to the catch-all
    match arm of `calculate_billable_minutes` and is returned unchanged,
    and `build_bill_report` carries it into billed_minutes and
    billed_amount of the report day. -/
theorem C10_negative_passthrough (m : Int) (h : m < 0) :
    calculate_billable_minutes m = m ∧
    ∀ (d : String) (c : Client),
      (build_bill_report [(d, m)] c).days
        = [⟨d, m, m, (m : Rat) * c.hourly_rate / 60, rustStrLe d c.last_billed_date⟩] := by
  have h1 : calculate_billable_minutes m = m := by
    unfold calculate_billable_minutes
    split_ifs <;> omega
  refine ⟨h1, fun d c => ?_⟩
  show sortByDate [mkBillReportDay c d m] = _
  simp [sortByDate, insertByDate, mkBillReportDay, h1]

/-- Witness for C10 at worked minutes -5. -/
theorem C10_negative_passthrough_witness :
    calculate_billable_minutes (-5) = -5 ∧
    (build_bill_report [("2022-01-02", -5)] ⟨"123", 30, "2022-01-01"⟩).days
      = [⟨"2022-01-02", -5, -5, ((-5 : Int) : Rat) * (30 : Rat) / 60,
          rustStrLe "2022-01-02" "2022-01-01"⟩] :=
  ⟨(C10_negative_passthrough (-5) (by decide)).1,
   (C10_negative_passthrough (-5) (by decide)).2 "2022-01-02" ⟨"123", 30, "2022-01-01"⟩⟩

/-- Joining consecutive 50-entry page slices starting after page k
    reproduces a contiguous segment of the source list. -/
lemma pageSlice_flatten : ∀ (n k : Nat) (l : List α),
    ((List.range' (k + 1) n).map (pageSlice l)).flatten
      = (l.drop (50 * k)).take (50 * n) := by
  intro n
  induction n with
  | zero => intro k l; simp
  | succ n ih =>
    intro k l
    rw [List.range'_succ]
    simp only [List.map_cons, List.flatten_cons]
    rw [show 50 * (n + 1) = 50 + 50 * n by ring, List.take_add]
    have h1 : pageSlice l (k + 1) = (l.drop (50 * k)).take 50 := by
      simp [pageSlice, Nat.mul_comm]
    have h2 : ((List.range' (k + 1 + 1) n).map (pageSlice l)).flatten
        = ((l.drop (50 * k)).drop 50).take (50 * n) := by
      rw [ih (k + 1) l, List.drop_drop, show 50 * (k + 1) = 50 * k + 50 by ring]
    rw [h1, h2]

/-- The page-count computation of `get_year_data` is the ceiling of
    total_count / 50 whenever the pagination branch is entered. -/
lemma totalPagesCalc_eq (tc : Nat) (h : 50 < tc) : totalPagesCalc tc = (tc + 49) / 50 := by
  unfold totalPagesCalc
  split_ifs <;> omega

/-- For a positive total_count the requested pages are exactly
    1, 2, ..., ceil(total_count / 50). -/
lemma requestedPages_eq (tc : Nat) (h : 0 < tc) :
    requestedPages tc = List.range' 1 ((tc + 49) / 50) := by
  unfold requestedPages
  by_cases h50 : 50 < tc
  · rw [if_pos h50, totalPagesCalc_eq tc h50]
    obtain ⟨k, hk⟩ : ∃ k, (tc + 49) / 50 = k + 1 := ⟨(tc + 49) / 50 - 1, by omega⟩
    rw [hk, List.range'_succ]
    have hsub : k + 1 - 1 = k := by omega
    rw [hsub]
  · rw [if_neg h50]
    have h1 : (tc + 49) / 50 = 1 := by omega
    rw [h1]
    rfl

/-- C4 (amended): against a source holding total_count entries served in
    50-entry pages, the merged collection `get_year_data` builds is exactly
    the full entry list (so its size is total_count); and for total_count
    at least 1 the requested pages are exactly 1, 2, ...,
    ceil(total_count / 50). For total_count = 0 the code still issues the
    initial page-1 request (see the counterexample). -/
theorem C4_pagination_completeness {α : Type} (entries : List α) :
    get_year_data_entries entries = entries ∧
    (0 < entries.length →
      requestedPages entries.length = List.range' 1 ((entries.length + 49) / 50)) := by
  constructor
  · unfold get_year_data_entries
    by_cases h : 0 < entries.length
    · rw [requestedPages_eq _ h]
      have hfl := pageSlice_flatten ((entries.length + 49) / 50) 0 entries
      simp only [Nat.mul_zero, List.drop_zero, Nat.zero_add] at hfl
      rw [hfl]
      exact List.take_of_length_le (by omega)
    · have hnil : entries = [] := by
        cases entries with
        | nil => rfl
        | cons x xs => simp at h
      subst hnil
      rfl
  · intro h
    exact requestedPages_eq _ h

/-- Witness for C4 at the spec example total_count = 127: pages 1, 2, 3
    (range' 1 3) are requested and all 127 entries are merged back. -/
theorem C4_pagination_completeness_witness :
    requestedPages (List.range 127).length
      = List.range' 1 (((List.range 127).length + 49) / 50) ∧
    get_year_data_entries (List.range 127) = List.range 127 :=
  ⟨(C4_pagination_completeness (List.range 127)).2 (by simp),
   (C4_pagination_completeness (List.range 127)).1⟩

/-- C4 counterexample: when the source reports total_count = 0 the code
    still requests one page (the unconditional page-1 request), while
    ceil(0 / 50) = 0 pages.  -/
theorem C4_counterexample : (requestedPages 0).length = 1 ∧ (0 + 49) / 50 = 0 := by decide

/-- Running the ReportYear iterator for any fuel yields the year pairs of
    the remaining range, truncated to the fuel. -/
lemma reportYearTake_eq : ∀ (n : Nat) (s : ReportYear),
    reportYearTake n s
      = ((List.range' s.current (s.«until» + 1 - s.current)).map reportYearPair).take n := by
  intro n
  induction n with
  | zero => intro s; simp [reportYearTake]
  | succ n ih =>
    intro s
    by_cases h : s.«until» < s.current
    · have hz : s.«until» + 1 - s.current = 0 := by omega
      simp [reportYearTake, reportYearNext, if_pos h, hz]
    · have hc : s.«until» + 1 - s.current = (s.«until» + 1 - (s.current + 1)) + 1 := by omega
      have hstep : reportYearTake (n + 1) s
          = reportYearPair s.current :: reportYearTake n ⟨s.current + 1, s.«until»⟩ := by
        rw [reportYearTake, reportYearNext, if_neg h]
      rw [hstep, ih ⟨s.current + 1, s.«until»⟩, hc, List.range'_succ, List.map_cons,
        List.take_succ_cons]

/-- C5: for start year Y0 and end year Y1 with Y0 <= Y1, consuming the
    ReportYear iterator yields exactly the pairs
    ("<y>-01-01", "<y>-12-31") for y = Y0, ..., Y1 in ascending order and
    then nothing: for every fuel n the output is the first n elements of
    that (Y1 - Y0 + 1)-element list. -/
theorem C5_window_sequence (y0 y1 n : Nat) (h : y0 ≤ y1) :
    reportYearTake n ⟨y0, y1⟩
      = ((List.range' y0 (y1 - y0 + 1)).map reportYearPair).take n := by
  have := reportYearTake_eq n ⟨y0, y1⟩
  simpa [show y1 + 1 - y0 = y1 - y0 + 1 by omega] using this

/-- Witness for C5 at the edge case Y0 = Y1 = 2022 with fuel 3: the single
    pair for 2022 is produced and nothing further. -/
theorem C5_window_sequence_witness :
    reportYearTake 3 ⟨2022, 2022⟩
      = ((List.range' 2022 (2022 - 2022 + 1)).map reportYearPair).take 3 :=
  C5_window_sequence 2022 2022 3 (by decide)

/-- The chrono num_seconds computation on a normalized nanosecond delta is
    truncation toward zero of the division by 1e9. -/
lemma deltaNumSeconds_eq_tdiv (n : Int) : deltaNumSeconds n = Int.tdiv n 1000000000 := by
  unfold deltaNumSeconds
  rw [Int.fdiv_eq_ediv _ (by norm_num)]
  rcases le_or_lt 0 n with h | h
  · rw [Int.tdiv_eq_ediv h (by norm_num)]
    have h2 : 0 ≤ n / 1000000000 := Int.ediv_nonneg h (by norm_num)
    split_ifs with hif <;> omega
  · have h1 : Int.tdiv (-n) 1000000000 = (-n) / 1000000000 :=
      Int.tdiv_eq_ediv (by omega) (by norm_num)
    have h2 : Int.tdiv (-n) 1000000000 = -(Int.tdiv n 1000000000) := Int.neg_tdiv n 1000000000
    have hkey : Int.tdiv n 1000000000 = -((-n) / 1000000000) := by omega
    rw [hkey]
    split_ifs with hif <;> omega

/-- The minute count of a nanosecond delta: both divisions truncate toward
    zero. -/
lemma deltaNumMinutes_eq_tdiv (n : Int) :
    deltaNumMinutes n = Int.tdiv (Int.tdiv n 1000000000) 60 := by
  rw [deltaNumMinutes, deltaNumSeconds_eq_tdiv]

/-- C3 (amended): for an entry whose start and end both parse, the minutes
    bucketed under the start day equal the nanosecond difference divided by
    1e9 and then by 60 with both divisions truncating toward zero (the
    chrono num_minutes semantics), which agrees with the floor-based
    formula of the spec exactly when the difference is non-negative;
    negative durations are not clamped. -/
theorem C3_duration_truncation (a b : String) (st en : Timestamp)
    (ha : parseRfc3339 a = some st) (hb : parseRfc3339 b = some en) :
    summaryAt (build_summary [⟨a, b⟩]) (dayKey st)
      = some (some (Int.tdiv (Int.tdiv (timelineNanos en - timelineNanos st) 1000000000) 60)) ∧
    (0 ≤ timelineNanos en - timelineNanos st →
      Int.tdiv (Int.tdiv (timelineNanos en - timelineNanos st) 1000000000) 60
        = Int.fdiv (Int.fdiv (timelineNanos en - timelineNanos st) 1000000000) 60) := by
  constructor
  · simp [build_summary, buildSummaryGo, ha, hb, summaryAt, insertSummary, entryMinutes,
      deltaNumMinutes_eq_tdiv]
  · intro hnn
    have e1 : Int.tdiv (timelineNanos en - timelineNanos st) 1000000000
        = (timelineNanos en - timelineNanos st) / 1000000000 :=
      Int.tdiv_eq_ediv hnn (by norm_num)
    have e2 : Int.fdiv (timelineNanos en - timelineNanos st) 1000000000
        = (timelineNanos en - timelineNanos st) / 1000000000 :=
      Int.fdiv_eq_ediv _ (by norm_num)
    have h3 : 0 ≤ (timelineNanos en - timelineNanos st) / 1000000000 :=
      Int.ediv_nonneg hnn (by norm_num)
    rw [e1, e2, Int.tdiv_eq_ediv h3 (by norm_num), Int.fdiv_eq_ediv _ (by norm_num)]

/-- Witness for C3 at a concrete 80-minute entry. -/
theorem C3_duration_truncation_witness :
    summaryAt (build_summary [⟨"2022-01-01T00:00:00+00:00", "2022-01-01T01:20:00+00:00"⟩])
        (dayKey ⟨2022, 1, 1, 0, 0, 0, 0, 0⟩)
      = some (some (Int.tdiv (Int.tdiv (timelineNanos ⟨2022, 1, 1, 1, 20, 0, 0, 0⟩
          - timelineNanos ⟨2022, 1, 1, 0, 0, 0, 0, 0⟩) 1000000000) 60)) ∧
    Int.tdiv (Int.tdiv (timelineNanos ⟨2022, 1, 1, 1, 20, 0, 0, 0⟩
        - timelineNanos ⟨2022, 1, 1, 0, 0, 0, 0, 0⟩) 1000000000) 60
      = Int.fdiv (Int.fdiv (timelineNanos ⟨2022, 1, 1, 1, 20, 0, 0, 0⟩
        - timelineNanos ⟨2022, 1, 1, 0, 0, 0, 0, 0⟩) 1000000000) 60 :=
  ⟨(C3_duration_truncation "2022-01-01T00:00:00+00:00" "2022-01-01T01:20:00+00:00"
      ⟨2022, 1, 1, 0, 0, 0, 0, 0⟩ ⟨2022, 1, 1, 1, 20, 0, 0, 0⟩ (by decide) (by decide)).1,
   (C3_duration_truncation "2022-01-01T00:00:00+00:00" "2022-01-01T01:20:00+00:00"
      ⟨2022, 1, 1, 0, 0, 0, 0, 0⟩ ⟨2022, 1, 1, 1, 20, 0, 0, 0⟩ (by decide) (by decide)).2
      (by decide)⟩

/-- C3 counterexample: the claim says an entry whose end precedes its start
    by 90 seconds contributes floor(-90 / 60) = -2 minutes; the code
    buckets -1 minute (chrono num_minutes truncates toward zero). -/
theorem C3_counterexample :
    summaryAt (build_summary
        [⟨"2022-01-01T00:01:30+00:00", "2022-01-01T00:00:00+00:00"⟩]) "2022-01-01"
      = some (some (-1)) ∧
    Int.fdiv (-90) 60 = -2 ∧ ((-1 : Int) ≠ -2) :=
  ⟨by decide, by decide, by decide⟩

/-- On any prefix state, one unparseable field among the entries aborts the
    fold with the context message of the first failure. -/
lemma buildSummaryGo_error : ∀ (entries : List TimeEntry) (acc : String → Option Int),
    (∃ e ∈ entries, parseRfc3339 e.start = none ∨ parseRfc3339 e.«end» = none) →
    ∃ e ∈ entries,
      (parseRfc3339 e.start = none ∧
        buildSummaryGo entries acc = .error ("Failed to parse start date: " ++ e.start)) ∨
      (parseRfc3339 e.«end» = none ∧
        buildSummaryGo entries acc = .error ("Failed to parse end date: " ++ e.«end»)) := by
  intro entries
  induction entries with
  | nil =>
    intro acc h
    obtain ⟨e, he, _⟩ := h
    exact absurd he (List.not_mem_nil e)
  | cons e rest ih =>
    intro acc h
    cases hs : parseRfc3339 e.start with
    | none =>
      refine ⟨e, List.mem_cons_self e rest, Or.inl ⟨hs, ?_⟩⟩
      simp [buildSummaryGo, hs]
    | some st =>
      cases hen : parseRfc3339 e.«end» with
      | none =>
        refine ⟨e, List.mem_cons_self e rest, Or.inr ⟨hen, ?_⟩⟩
        simp [buildSummaryGo, hs, hen]
      | some en =>
        have hrest : ∃ x ∈ rest, parseRfc3339 x.start = none ∨ parseRfc3339 x.«end» = none := by
          obtain ⟨x, hx, hbad⟩ := h
          rcases List.mem_cons.mp hx with rfl | hxr
          · rcases hbad with hb | hb
            · rw [hs] at hb
              simp at hb
            · rw [hen] at hb
              simp at hb
          · exact ⟨x, hxr, hbad⟩
        obtain ⟨x, hx, hcase⟩ := ih (insertSummary acc (dayKey st) (entryMinutes st en)) hrest
        refine ⟨x, List.mem_cons_of_mem e hx, ?_⟩
        have hgo : buildSummaryGo (e :: rest) acc
            = buildSummaryGo rest (insertSummary acc (dayKey st) (entryMinutes st en)) := by
          simp [buildSummaryGo, hs, hen]
        rw [hgo]
        exact hcase

/-- C6: when any entry has a start or end field that does not parse,
    build_summary returns an error (no summary at all), and the error
    message names the failing field and its raw string value. -/
theorem C6_parse_failure_aborts (entries : List TimeEntry)
    (h : ∃ e ∈ entries, parseRfc3339 e.start = none ∨ parseRfc3339 e.«end» = none) :
    ∃ e ∈ entries,
      (parseRfc3339 e.start = none ∧
        build_summary entries = .error ("Failed to parse start date: " ++ e.start)) ∨
      (parseRfc3339 e.«end» = none ∧
        build_summary entries = .error ("Failed to parse end date: " ++ e.«end»)) :=
  buildSummaryGo_error entries (fun _ => none) h

/-- Witness for C6 at the concrete malformed entry of the repository test. -/
theorem C6_parse_failure_aborts_witness :
    build_summary [⟨"this string is not a date", "2022-01-01T00:10:00+00:00"⟩]
      = .error ("Failed to parse start date: " ++ "this string is not a date") := by
  obtain ⟨e, he, hcase⟩ := C6_parse_failure_aborts
    [⟨"this string is not a date", "2022-01-01T00:10:00+00:00"⟩]
    ⟨⟨"this string is not a date", "2022-01-01T00:10:00+00:00"⟩, List.mem_singleton.mpr rfl,
      Or.inl (by decide)⟩
  have he2 := List.mem_singleton.mp he
  subst he2
  rcases hcase with ⟨_, h2⟩ | ⟨h1, _⟩
  · exact h2
  · exact absurd h1 (by decide)

/-- Characterization of the successful aggregation fold: the final map
    holds, at each day, the initial value plus the summed contributions of
    the entries bucketed under that day. -/
lemma buildSummaryGo_ok : ∀ (entries : List TimeEntry) (acc : String → Option Int),
    (∀ e ∈ entries, (parseRfc3339 e.start).isSome ∧ (parseRfc3339 e.«end»).isSome) →
    buildSummaryGo entries acc = .ok (fun d =>
      if (dayContribs entries d).isEmpty then acc d
      else some ((acc d).getD 0 + (dayContribs entries d).sum)) := by
  intro entries
  induction entries with
  | nil =>
    intro acc _
    exact congrArg Except.ok (funext fun d => by simp [dayContribs])
  | cons e rest ih =>
    intro acc hall
    obtain ⟨hs, hen⟩ := hall e (List.mem_cons_self e rest)
    obtain ⟨st, hst⟩ := Option.isSome_iff_exists.mp hs
    obtain ⟨en, hene⟩ := Option.isSome_iff_exists.mp hen
    have hgo : buildSummaryGo (e :: rest) acc
        = buildSummaryGo rest (insertSummary acc (dayKey st) (entryMinutes st en)) := by
      simp [buildSummaryGo, hst, hene]
    rw [hgo, ih _ (fun x hx => hall x (List.mem_cons_of_mem e hx))]
    refine congrArg Except.ok (funext fun d => ?_)
    by_cases hd : dayKey st = d
    · subst hd
      have hc : dayContribs (e :: rest) (dayKey st)
          = entryMinutes st en :: dayContribs rest (dayKey st) := by
        simp [dayContribs, entryContrib, hst, hene]
      have hacc : insertSummary acc (dayKey st) (entryMinutes st en) (dayKey st)
          = some ((acc (dayKey st)).getD 0 + entryMinutes st en) := by
        unfold insertSummary
        rw [if_pos rfl]
        cases hv : acc (dayKey st) with
        | none => simp
        | some x => simp
      rw [hc, hacc]
      by_cases hre : (dayContribs rest (dayKey st)).isEmpty
      · simp [hre, List.isEmpty_iff.mp hre]
      · simp [hre, add_assoc]
    · have hc : dayContribs (e :: rest) d = dayContribs rest d := by
        simp [dayContribs, entryContrib, hst, hene, hd]
      have hacc : insertSummary acc (dayKey st) (entryMinutes st en) d = acc d := by
        unfold insertSummary
        rw [if_neg (fun hh => hd hh.symm)]
      rw [hc, hacc]

/-- When every entry parses, build_summary succeeds and the resulting map
    is exactly the per-day contribution sum. -/
lemma build_summary_ok (entries : List TimeEntry)
    (h : ∀ e ∈ entries, (parseRfc3339 e.start).isSome ∧ (parseRfc3339 e.«end»).isSome) :
    build_summary entries = .ok (fun d => daySum entries d) := by
  rw [build_summary, buildSummaryGo_ok entries _ h]
  refine congrArg Except.ok (funext fun d => ?_)
  by_cases hd : (dayContribs entries d).isEmpty <;> simp [daySum, hd]

/-- C7: when every entry parses, build_summary succeeds with the map
    sending each day to the sum of the durations of the entries whose
    start falls on that day, and any permutation of the entry collection
    produces the same day-to-minutes mapping. -/
theorem C7_order_independent (l1 l2 : List TimeEntry) (hperm : l1.Perm l2)
    (h : ∀ e ∈ l1, (parseRfc3339 e.start).isSome ∧ (parseRfc3339 e.«end»).isSome) :
    build_summary l1 = .ok (fun d => daySum l1 d) ∧
    build_summary l2 = .ok (fun d => daySum l2 d) ∧
    ∀ d, daySum l2 d = daySum l1 d := by
  have h2 : ∀ e ∈ l2, (parseRfc3339 e.start).isSome ∧ (parseRfc3339 e.«end»).isSome :=
    fun e he => h e (hperm.mem_iff.mpr he)
  refine ⟨build_summary_ok l1 h, build_summary_ok l2 h2, fun d => ?_⟩
  have hp : (dayContribs l1 d).Perm (dayContribs l2 d) := hperm.filterMap (entryContrib d)
  have hemp : (dayContribs l2 d).isEmpty = (dayContribs l1 d).isEmpty := by
    rw [Bool.eq_iff_iff, List.isEmpty_iff_length_eq_zero, List.isEmpty_iff_length_eq_zero,
      hp.length_eq]
  unfold daySum
  rw [hemp, hp.sum_eq]

/-- Witness for C7: swapping the two January entries of the repository test
    leaves the day total unchanged. -/
theorem C7_order_independent_witness :
    daySum [⟨"2022-01-01T10:00:00+00:00", "2022-01-01T11:10:00+00:00"⟩,
            ⟨"2022-01-01T00:00:00+00:00", "2022-01-01T00:10:00+00:00"⟩] "2022-01-01"
      = daySum [⟨"2022-01-01T00:00:00+00:00", "2022-01-01T00:10:00+00:00"⟩,
                ⟨"2022-01-01T10:00:00+00:00", "2022-01-01T11:10:00+00:00"⟩] "2022-01-01" :=
  (C7_order_independent
    [⟨"2022-01-01T00:00:00+00:00", "2022-01-01T00:10:00+00:00"⟩,
     ⟨"2022-01-01T10:00:00+00:00", "2022-01-01T11:10:00+00:00"⟩]
    [⟨"2022-01-01T10:00:00+00:00", "2022-01-01T11:10:00+00:00"⟩,
     ⟨"2022-01-01T00:00:00+00:00", "2022-01-01T00:10:00+00:00"⟩]
    (by decide) (by decide)).2.2 "2022-01-01"
